import Mathlib

/-!
Verification of the redis-tics session/monitoring frontend core
(`src/hooks/useRedis.ts` and the CLI safety gate in the terminal panel).

The TypeScript state hooks are embedded shallowly:
  * a JS object used as a string-keyed map (`Record<string, T>`) is an
    association list `List (String × T)`; the spread `{...prev, [k]: v}`
    is `rinsert`, which updates the entry in place when the key is
    present and appends it otherwise, exactly as JS object spread does;
  * the Tauri `invoke` calls reach backend code that is not part of the
    frontend sources, so each backend command is an oracle parameter:
    a function returning `Option`/`Except` (a `none`/`Except.error`
    result is the promise rejecting);
  * React `setX` state updates become explicit state passing on small
    state records (`MonitorState`, `AppState`).
-/

set_option autoImplicit false

namespace RedisTics

universe u

/-! Maps: JS objects keyed by strings, as association lists. -/

/-- Lookup `r[k]` in a JS-object-like map: first (and, for maps built by
`rinsert`, only) binding of the key. -/
def rlookup {α : Type u} : List (String × α) → String → Option α
  | [], _ => none
  | p :: rest, k => if p.1 = k then some p.2 else rlookup rest k

/-- JS object spread `{...r, [k]: v}`: replaces the binding of `k` in place
when present, appends the new binding otherwise. -/
def rinsert {α : Type u} (r : List (String × α)) (k : String) (v : α) :
    List (String × α) :=
  if (rlookup r k).isSome then r.map (fun p => if p.1 = k then (k, v) else p)
  else r ++ [(k, v)]

/-- Keys of the map, in binding order. -/
def rkeys {α : Type u} (r : List (String × α)) : List String := r.map Prod.fst

/-! Data model (src/types/index.ts). -/

/-- Record `MonitorEvent` from `src/types/index.ts`. The JS `number`
timestamp only ever flows through unchanged, so `Int` is a faithful
carrier. -/
structure MonitorEvent where
  timestamp : Int
  clientIp : String
  clientPort : String
  db : Nat
  command : String
  args : List String
  raw : String
  deriving Repr, DecidableEq

/-- Record `IpStats` from `src/types/index.ts`; `commands` is a JS object
map. -/
structure IpStats where
  ip : String
  commandCount : Nat
  lastSeen : Int
  commands : List (String × Nat)
  bytesProcessed : Nat
  deriving Repr, DecidableEq

/-! Monitor ingestion state (src/hooks/useRedis.ts). -/

/-- The two pieces of React state the monitor listener touches:
`monitorEvents` (replay buffer) and `ipStats` (aggregation table). -/
structure MonitorState where
  monitorEvents : List MonitorEvent
  ipStats : List (String × IpStats)
  deriving Repr, DecidableEq

/-- The zero record created lazily for a first-seen address
(useRedis.ts:36). -/
def freshIpStats (ip : String) : IpStats :=
  { ip := ip, commandCount := 0, lastSeen := 0, commands := [], bytesProcessed := 0 }

/-- Model of `updateIpStats` (useRedis.ts:33-51): read or lazily create the
entry for `event.clientIp`, bump its counters, write it back with object
spread. -/
def updateIpStats (prev : List (String × IpStats)) (event : MonitorEvent) :
    List (String × IpStats) :=
  let ip := event.clientIp
  let existing := (rlookup prev ip).getD (freshIpStats ip)
  rinsert prev ip
    { existing with
      commandCount := existing.commandCount + 1
      lastSeen := event.timestamp
      commands := rinsert existing.commands event.command
        ((rlookup existing.commands event.command).getD 0 + 1)
      bytesProcessed := existing.bytesProcessed + event.raw.length }

/-- The `redis-monitor` listener body (useRedis.ts:26-30): prepend the event
to the replay buffer, keep at most the 1000 newest, then feed the
aggregator. -/
def onMonitorEvent (s : MonitorState) (data : MonitorEvent) : MonitorState :=
  { monitorEvents := (data :: s.monitorEvents).take 1000
    ipStats := updateIpStats s.ipStats data }

/-- Model of `clearMonitorEvents` (useRedis.ts:178-181). -/
def clearMonitorEvents (s : MonitorState) : MonitorState :=
  { monitorEvents := [], ipStats := [] }

/-- Delivery of a sequence of monitor events in order. -/
def deliverAll (s : MonitorState) (es : List MonitorEvent) : MonitorState :=
  es.foldl onMonitorEvent s

/-- Model of `filteredEvents` (useRedis.ts:183-185); `selectedIp ? ... : ...`
is JS truthiness, so the empty string behaves like no selection. -/
def filteredEvents (selectedIp : Option String)
    (monitorEvents : List MonitorEvent) : List MonitorEvent :=
  match selectedIp with
  | some ip =>
      if ip = "" then monitorEvents
      else monitorEvents.filter (fun e => e.clientIp = ip)
  | none => monitorEvents

/-- Total command count over the aggregation table. -/
def ccSum (r : List (String × IpStats)) : Nat :=
  (r.map (fun p => p.2.commandCount)).sum

/-! Session registry (src/hooks/useRedis.ts). -/

/-- Record `RedisServer` from `src/types/index.ts`; optional fields are
`Option`. -/
structure RedisServer where
  id : String
  name : String
  host : String
  port : Nat
  password : Option String
  db : Option Nat
  tls : Option Bool
  deriving Repr, DecidableEq

/-- Record `ConnectionState` from `src/types/index.ts`. -/
structure ConnectionState where
  serverId : String
  connected : Bool
  monitoring : Bool
  error : Option String
  deriving Repr, DecidableEq

/-- The React state of `useRedis` the session claims touch. -/
structure AppState where
  servers : List RedisServer
  activeServerId : Option String
  connectionStates : List (String × ConnectionState)
  deriving Repr, DecidableEq

/-- The `decryptedPassword` local of `connect` (useRedis.ts:94-101): keep the
stored value; when it is truthy, try the backend decrypt and on rejection
fall back to the stored value as-is. The backend `decrypt_server_password`
command is the oracle `decrypt` (`none` = the promise rejected). -/
def decryptedPassword (decrypt : String → Option String)
    (pw : Option String) : Option String :=
  match pw with
  | none => none
  | some p => if p = "" then some p else some ((decrypt p).getD p)

/-- The part of `connect` after password handling (useRedis.ts:102-114):
call `connect_redis` with the password-substituted profile; on success mark
the session connected and make the profile active, on rejection mark it
disconnected and record `String(error)`. `connectRedis` is the backend
oracle. -/
def connectWith (connectRedis : RedisServer → Except String Unit)
    (st : AppState) (serverId : String) (server : RedisServer)
    (pw : Option String) : AppState :=
  let serverWithDecryptedPassword := { server with password := pw }
  match connectRedis serverWithDecryptedPassword with
  | Except.ok _ =>
      { st with
        connectionStates := rinsert st.connectionStates serverId
          { serverId := serverId, connected := true, monitoring := false, error := none }
        activeServerId := some serverId }
  | Except.error e =>
      { st with
        connectionStates := rinsert st.connectionStates serverId
          { serverId := serverId, connected := false, monitoring := false, error := some e } }

/-- Model of `connect` (useRedis.ts:87-115). The whole body is wrapped in
try/catch, so the call always returns a state; `refreshInfo` and
`refreshClients` only touch state outside `AppState` and swallow their own
errors. -/
def connect (decrypt : String → Option String)
    (connectRedis : RedisServer → Except String Unit)
    (st : AppState) (serverId : String) : AppState :=
  match st.servers.find? (fun s => s.id = serverId) with
  | none => st
  | some server =>
      connectWith connectRedis st serverId server
        (decryptedPassword decrypt server.password)

/-- The profiles handed to the backend `connect_redis` command during one
`connect` call (useRedis.ts:103): exactly one when the profile exists,
none otherwise — there is no retry loop. -/
def connectCalls (decrypt : String → Option String) (st : AppState)
    (serverId : String) : List RedisServer :=
  match st.servers.find? (fun s => s.id = serverId) with
  | none => []
  | some server =>
      [{ server with password := decryptedPassword decrypt server.password }]

/-- Model of `disconnect` (useRedis.ts:117-122): the backend
`disconnect_redis` result (`closeResult`) is swallowed by `try {} catch {}`;
the session entry is then unconditionally reset to disconnected. -/
def disconnect (closeResult : Except String Unit) (st : AppState)
    (serverId : String) : AppState :=
  { st with
    connectionStates := rinsert st.connectionStates serverId
      { serverId := serverId, connected := false, monitoring := false, error := none } }

/-- Model of `removeServer` (useRedis.ts:79-85): disconnect first, then drop
the profile from the saved list and clear the active id if it pointed
here. -/
def removeServer (closeResult : Except String Unit) (st : AppState)
    (serverId : String) : AppState :=
  let st1 := disconnect closeResult st serverId
  let updatedServers := st1.servers.filter (fun s => !(s.id = serverId))
  let st2 := { st1 with servers := updatedServers }
  if st2.activeServerId = some serverId then { st2 with activeServerId := none }
  else st2

/-- The `encryptedPassword` local of `addServer`/`updateServer`
(useRedis.ts:63-71, 124-132): keep the entered value; when truthy, try the
backend encrypt and on rejection store the entered value as-is (the source
comments this as the dev-mode fallback). -/
def encryptedPassword (encrypt : String → Option String)
    (pw : Option String) : Option String :=
  match pw with
  | none => none
  | some p => if p = "" then some p else some ((encrypt p).getD p)

/-- Model of `addServer` (useRedis.ts:63-77); `newId` stands for
`crypto.randomUUID()`. The list passed to `save_servers` is exactly the new
`servers` field. -/
def addServer (encrypt : String → Option String) (newId : String)
    (st : AppState) (server : RedisServer) : AppState :=
  let newServer := { server with
    password := encryptedPassword encrypt server.password, id := newId }
  { st with servers := st.servers ++ [newServer] }

/-- Model of `updateServer` (useRedis.ts:124-142): encrypt, substitute the
profile by id, persist, then force-disconnect when the profile was
connected. -/
def updateServer (encrypt : String → Option String)
    (closeResult : Except String Unit) (st : AppState)
    (updatedServer : RedisServer) : AppState :=
  let serverToSave := { updatedServer with
    password := encryptedPassword encrypt updatedServer.password }
  let updatedServers := st.servers.map
    (fun s => if s.id = updatedServer.id then serverToSave else s)
  let st1 := { st with servers := updatedServers }
  match rlookup st.connectionStates updatedServer.id with
  | some state => if state.connected then disconnect closeResult st1 updatedServer.id else st1
  | none => st1

/-! CLI safety gate (the terminal panel component). The JS string primitives
the panel uses are embedded as character-list functions (Lean's own
`String.toUpper`/`startsWith`/`trim` are extern-backed and do not reduce in
proofs). -/

/-- JS `toUpperCase()` (ASCII-relevant part). -/
def jsToUpper (s : String) : String := String.mk (s.data.map Char.toUpper)

/-- JS `startsWith(pre)`. -/
def jsStartsWith (s pre : String) : Bool := pre.data.isPrefixOf s.data

/-- JS `trim()`. -/
def jsTrim (s : String) : String :=
  String.mk
    (((s.data.dropWhile Char.isWhitespace).reverse.dropWhile
        Char.isWhitespace).reverse)

/-- Constant `DANGEROUS_COMMANDS` (terminal panel, line 30). -/
def DANGEROUS_COMMANDS : List String :=
  ["FLUSHDB", "FLUSHALL", "DEBUG", "SHUTDOWN", "CONFIG SET", "SLAVEOF", "REPLICAOF"]

/-- Payload `PerformanceWarning` returned by `check_operation_impact`. -/
structure PerformanceWarning where
  level : String
  message : String
  estimatedImpact : String
  deriving Repr, DecidableEq

/-- Model of `checkDangerous` (terminal panel, lines 82-85). -/
def checkDangerous (cmd : String) : Bool :=
  DANGEROUS_COMMANDS.any (fun d => jsStartsWith (jsToUpper cmd) d)

/-- Observable outcome of one `executeCommand`/`confirmDangerous` run. -/
inductive ExecOutcome where
  | executed (cmd : String)
  | blocked (w : PerformanceWarning)
  | noop
  deriving Repr, DecidableEq

/-- JS `command.split(" ")[0]` of the raw input line: the segment before the
first space. -/
def headWord (command : String) : String :=
  String.mk (command.data.takeWhile (fun c => !(c = ' ')))

/-- Model of `executeCommand` (terminal panel, lines 87-136): blank input is
ignored; a dangerous line consults `check_operation_impact` (oracle
`assess`, `none` = the invoke rejected, which the empty catch swallows) and
is blocked only on a `critical` verdict; everything else reaches
`execute_command` with the trimmed line. -/
def executeCommand (assess : String → String → Option PerformanceWarning)
    (command : String) : ExecOutcome :=
  if jsTrim command = "" then ExecOutcome.noop
  else if checkDangerous command then
    match assess (jsToUpper (headWord command)) command with
    | some w =>
        if w.level = "critical" then ExecOutcome.blocked w
        else ExecOutcome.executed (jsTrim command)
    | none => ExecOutcome.executed (jsTrim command)
  else ExecOutcome.executed (jsTrim command)

/-- Model of `confirmDangerous` (terminal panel, lines 164-189): after the
explicit "Execute Anyway" acknowledgement the trimmed line is executed
unconditionally. -/
def confirmDangerous (command : String) : ExecOutcome :=
  ExecOutcome.executed (jsTrim command)

/-! Concrete inputs and oracles used by the witnesses. -/

/-- Concrete monitor event used by witnesses. -/
def sampleEvent (ip cmd : String) : MonitorEvent :=
  { timestamp := 5, clientIp := ip, clientPort := "40000", db := 0,
    command := cmd, args := ["k"], raw := "GET k" }

/-- Concrete profile used by the session witnesses. -/
def sampleServer : RedisServer :=
  { id := "s1", name := "local", host := "localhost", port := 6379,
    password := some "secret", db := some 0, tls := none }

/-- Concrete one-profile app state used by the session witnesses. -/
def sampleAppState : AppState :=
  { servers := [sampleServer], activeServerId := some "s1",
    connectionStates := [] }

/-- A decrypt oracle whose promise always rejects. -/
def failDecrypt : String → Option String := fun _ => none

/-- A backend connect oracle that always succeeds. -/
def okConnect : RedisServer → Except String Unit := fun _ => Except.ok ()

/-- A backend connect oracle that always rejects. -/
def refuseConnect : RedisServer → Except String Unit :=
  fun _ => Except.error "connection refused"

/-- An encrypt oracle whose promise always rejects (the dev-mode situation
the source comment mentions). -/
def failEncrypt : String → Option String := fun _ => none

/-- An encrypt oracle that succeeds with a fixed ciphertext blob. -/
def okEncrypt : String → Option String := fun _ => some "vault:abc"

/-- The critical verdict used by the C9 witness. -/
def critWarning : PerformanceWarning :=
  { level := "critical", message := "This command deletes data",
    estimatedImpact := "entire keyspace" }

/-- A classifier oracle that always returns the critical verdict. -/
def critAssess : String → String → Option PerformanceWarning :=
  fun _ _ => some critWarning

/-! Lemmas about the association-list map operations. -/

theorem rlookup_isSome_iff {α : Type u} (r : List (String × α)) (k : String) :
    (rlookup r k).isSome = true ↔ k ∈ r.map Prod.fst := by
  induction r with
  | nil => simp [rlookup]
  | cons p rest ih =>
    by_cases h : p.1 = k
    · simp [rlookup, h]
    · simp [rlookup, h, ih, Ne.symm h]

theorem rlookup_eq_none_of_not_mem {α : Type u} {r : List (String × α)}
    {k : String} (h : k ∉ r.map Prod.fst) : rlookup r k = none := by
  have hns := (rlookup_isSome_iff r k).not.mpr h
  cases hr : rlookup r k with
  | none => rfl
  | some v => rw [hr] at hns; simp at hns

theorem rlookup_map_update_self {α : Type u} (r : List (String × α))
    (k : String) (v : α) :
    rlookup (r.map (fun p => if p.1 = k then (k, v) else p)) k
      = (rlookup r k).map (fun _ => v) := by
  induction r with
  | nil => rfl
  | cons p rest ih =>
    by_cases hp : p.1 = k
    · simp [rlookup, hp]
    · simp [rlookup, hp, ih]

theorem rlookup_map_update_ne {α : Type u} (r : List (String × α))
    (k k' : String) (v : α) (h : k' ≠ k) :
    rlookup (r.map (fun p => if p.1 = k then (k, v) else p)) k'
      = rlookup r k' := by
  induction r with
  | nil => rfl
  | cons p rest ih =>
    by_cases hp : p.1 = k
    · have hne : k ≠ k' := Ne.symm h
      simp [rlookup, hp, hne, ih]
    · simp only [List.map_cons, if_neg hp, rlookup]
      by_cases hq : p.1 = k'
      · simp [hq]
      · simp [hq, ih]

theorem rlookup_append {α : Type u} (r s : List (String × α)) (k : String) :
    rlookup (r ++ s) k
      = match rlookup r k with
        | some v => some v
        | none => rlookup s k := by
  induction r with
  | nil => simp [rlookup]
  | cons p rest ih =>
    by_cases hp : p.1 = k
    · simp [rlookup, hp]
    · simp [rlookup, hp, ih]

@[simp]
theorem rlookup_rinsert_self {α : Type u} (r : List (String × α)) (k : String)
    (v : α) : rlookup (rinsert r k v) k = some v := by
  by_cases h : (rlookup r k).isSome = true
  · obtain ⟨w, hw⟩ := Option.isSome_iff_exists.mp h
    simp [rinsert, h, rlookup_map_update_self, hw]
  · have hn : rlookup r k = none := by
      cases hr : rlookup r k with
      | none => rfl
      | some w => rw [hr] at h; simp at h
    simp [rinsert, h, rlookup_append, hn, rlookup]

@[simp]
theorem rlookup_rinsert_ne {α : Type u} (r : List (String × α)) (k k' : String)
    (v : α) (h : k' ≠ k) : rlookup (rinsert r k v) k' = rlookup r k' := by
  by_cases hs : (rlookup r k).isSome = true
  · simp [rinsert, hs, rlookup_map_update_ne r k k' v h]
  · simp only [rinsert, hs, Bool.false_eq_true, ite_false, rlookup_append]
    cases hr : rlookup r k' with
    | some w => rfl
    | none => simp [rlookup, Ne.symm h]

theorem map_update_eq_self {α : Type u} {r : List (String × α)} {k : String}
    (v : α) (hmem : k ∉ r.map Prod.fst) :
    r.map (fun p => if p.1 = k then (k, v) else p) = r := by
  induction r with
  | nil => rfl
  | cons p rest ih =>
    simp only [List.map_cons, List.mem_cons, not_or] at hmem
    simp only [List.map_cons]
    rw [if_neg (Ne.symm hmem.1), ih hmem.2]

theorem rinsert_pos {α : Type u} {r : List (String × α)} {k : String} (v : α)
    (h : (rlookup r k).isSome = true) :
    rinsert r k v = r.map (fun p => if p.1 = k then (k, v) else p) := by
  simp [rinsert, h]

theorem rinsert_neg {α : Type u} {r : List (String × α)} {k : String} (v : α)
    (h : ¬(rlookup r k).isSome = true) : rinsert r k v = r ++ [(k, v)] := by
  simp [rinsert, h]

theorem rinsert_rinsert_same {α : Type u} (r : List (String × α)) (k : String)
    (v : α) : rinsert (rinsert r k v) k v = rinsert r k v := by
  have hs : (rlookup (rinsert r k v) k).isSome = true := by simp
  rw [rinsert_pos v hs]
  by_cases h : (rlookup r k).isSome = true
  · rw [rinsert_pos v h, List.map_map]
    apply List.map_congr_left
    intro p _
    by_cases hp : p.1 = k <;> simp [Function.comp, hp]
  · have hmem : k ∉ r.map Prod.fst := fun hm => h ((rlookup_isSome_iff r k).mpr hm)
    rw [rinsert_neg v h, List.map_append, map_update_eq_self v hmem]
    simp

theorem rkeys_rinsert_mem {α : Type u} {r : List (String × α)} {k : String}
    (v : α) (h : k ∈ rkeys r) : rkeys (rinsert r k v) = rkeys r := by
  have hs : (rlookup r k).isSome = true := (rlookup_isSome_iff r k).mpr h
  simp only [rinsert, hs, if_pos, rkeys, List.map_map]
  apply List.map_congr_left
  intro p _
  by_cases hp : p.1 = k <;> simp [Function.comp, hp]

theorem rkeys_rinsert_not_mem {α : Type u} {r : List (String × α)} {k : String}
    (v : α) (h : k ∉ rkeys r) : rkeys (rinsert r k v) = rkeys r ++ [k] := by
  have hs : ¬(rlookup r k).isSome = true :=
    fun hc => h ((rlookup_isSome_iff r k).mp hc)
  simp [rinsert, hs, rkeys]

theorem rkeys_toFinset_rinsert {α : Type u} (r : List (String × α)) (k : String)
    (v : α) : (rkeys (rinsert r k v)).toFinset = insert k (rkeys r).toFinset := by
  by_cases h : k ∈ rkeys r
  · rw [rkeys_rinsert_mem v h]
    have hk : k ∈ (rkeys r).toFinset := List.mem_toFinset.mpr h
    rw [Finset.insert_eq_self.mpr hk]
  · rw [rkeys_rinsert_not_mem v h]
    ext a
    simp [or_comm]

theorem rkeys_nodup_rinsert {α : Type u} {r : List (String × α)} {k : String}
    (v : α) (h : (rkeys r).Nodup) : (rkeys (rinsert r k v)).Nodup := by
  by_cases hm : k ∈ rkeys r
  · rwa [rkeys_rinsert_mem v hm]
  · rw [rkeys_rinsert_not_mem v hm]
    refine List.Nodup.append h (List.nodup_singleton k) ?_
    intro a ha hak
    rw [List.mem_singleton] at hak
    exact hm (hak ▸ ha)

theorem rkeys_length_eq_card {α : Type u} {r : List (String × α)}
    (h : (rkeys r).Nodup) : r.length = (rkeys r).toFinset.card := by
  rw [List.toFinset_card_of_nodup h]
  simp [rkeys]

/-! Lemmas about the aggregation table. -/

theorem rkeys_nodup_updateIpStats {r : List (String × IpStats)}
    (e : MonitorEvent) (h : (rkeys r).Nodup) :
    (rkeys (updateIpStats r e)).Nodup := by
  unfold updateIpStats
  exact rkeys_nodup_rinsert _ h

theorem rkeys_toFinset_updateIpStats (r : List (String × IpStats))
    (e : MonitorEvent) :
    (rkeys (updateIpStats r e)).toFinset
      = insert e.clientIp (rkeys r).toFinset := by
  unfold updateIpStats
  exact rkeys_toFinset_rinsert _ _ _

theorem ccSum_append (r s : List (String × IpStats)) :
    ccSum (r ++ s) = ccSum r + ccSum s := by
  simp [ccSum]

theorem ccSum_updateIpStats {r : List (String × IpStats)} (e : MonitorEvent)
    (h : (rkeys r).Nodup) : ccSum (updateIpStats r e) = ccSum r + 1 := by
  by_cases hs : (rlookup r e.clientIp).isSome = true
  · obtain ⟨w, hw⟩ := Option.isSome_iff_exists.mp hs
    unfold updateIpStats
    rw [rinsert_pos _ hs, hw]
    simp only [Option.getD_some]
    induction r with
    | nil => simp [rlookup] at hw
    | cons p rest ih =>
      by_cases hp : p.1 = e.clientIp
      · have hw' : p.2 = w := by
          rw [rlookup, if_pos hp] at hw
          exact Option.some_injective _ hw
        have hnm : e.clientIp ∉ rest.map Prod.fst := by
          simp only [rkeys, List.map_cons, List.nodup_cons] at h
          exact hp ▸ h.1
        rw [List.map_cons, if_pos hp]
        rw [map_update_eq_self _ hnm]
        simp only [ccSum, List.map_cons, List.sum_cons, hw']
        omega
      · have h' : (rkeys rest).Nodup := by
          simp only [rkeys, List.map_cons, List.nodup_cons] at h
          exact h.2
        have hw2 : rlookup rest e.clientIp = some w := by
          rwa [rlookup, if_neg hp] at hw
        have hs2 : (rlookup rest e.clientIp).isSome = true := by
          simp [hw2]
        rw [List.map_cons, if_neg hp]
        have := ih h' hs2 hw2
        simp only [ccSum, List.map_cons, List.sum_cons] at this ⊢
        omega
  · unfold updateIpStats
    rw [rinsert_neg _ hs]
    have hn : rlookup r e.clientIp = none := by
      cases hr : rlookup r e.clientIp with
      | none => rfl
      | some w => rw [hr] at hs; simp at hs
    rw [hn]
    simp [ccSum_append, ccSum, freshIpStats]

theorem ccSum_deliverAll (s : MonitorState) (es : List MonitorEvent)
    (h : (rkeys s.ipStats).Nodup) :
    ccSum (deliverAll s es).ipStats = ccSum s.ipStats + es.length := by
  induction es generalizing s with
  | nil => simp [deliverAll]
  | cons e rest ih =>
    have h1 : (rkeys (onMonitorEvent s e).ipStats).Nodup :=
      rkeys_nodup_updateIpStats e h
    have := ih (onMonitorEvent s e) h1
    simp only [deliverAll, List.foldl_cons] at this ⊢
    rw [this]
    show ccSum (updateIpStats s.ipStats e) + rest.length = _
    rw [ccSum_updateIpStats e h]
    simp [List.length_cons]
    omega

theorem rkeys_nodup_deliverAll (s : MonitorState) (es : List MonitorEvent)
    (h : (rkeys s.ipStats).Nodup) :
    (rkeys (deliverAll s es).ipStats).Nodup := by
  induction es generalizing s with
  | nil => exact h
  | cons e rest ih =>
    exact ih (onMonitorEvent s e) (rkeys_nodup_updateIpStats e h)

theorem rkeys_toFinset_deliverAll (s : MonitorState) (es : List MonitorEvent) :
    (rkeys (deliverAll s es).ipStats).toFinset
      = (rkeys s.ipStats).toFinset ∪ (es.map MonitorEvent.clientIp).toFinset := by
  induction es generalizing s with
  | nil => simp [deliverAll]
  | cons e rest ih =>
    simp only [deliverAll, List.foldl_cons] at ih ⊢
    rw [ih (onMonitorEvent s e)]
    show (rkeys (updateIpStats s.ipStats e)).toFinset ∪ _ = _
    rw [rkeys_toFinset_updateIpStats]
    ext a
    simp only [Finset.mem_union, Finset.mem_insert, List.mem_toFinset,
      List.map_cons, List.mem_cons]
    tauto

/-- The aggregation table after any delivery sequence is the plain fold of
`updateIpStats`, independent of the replay buffer. -/
theorem ipStats_deliverAll (s : MonitorState) (es : List MonitorEvent) :
    (deliverAll s es).ipStats = es.foldl updateIpStats s.ipStats := by
  induction es generalizing s with
  | nil => rfl
  | cons e rest ih =>
    simp only [deliverAll, List.foldl_cons] at ih ⊢
    rw [ih (onMonitorEvent s e)]
    rfl

/-! Claim theorems. -/

/-- C1: `updateIpStats` leaves every other address's entry untouched and, for
`event.clientIp`, produces an entry (created from the zero record when the
address is new) whose command count is incremented by one, whose `lastSeen`
is the event's timestamp, whose per-command counter for `event.command` is
incremented by one with all other command counters unchanged, and whose byte
count grows by the raw line's length. -/
theorem updateIpStats_correct (prev : List (String × IpStats))
    (e : MonitorEvent) :
    (∀ ip, ip ≠ e.clientIp →
        rlookup (updateIpStats prev e) ip = rlookup prev ip) ∧
    ∃ s, rlookup (updateIpStats prev e) e.clientIp = some s ∧
      s.commandCount
        = ((rlookup prev e.clientIp).getD (freshIpStats e.clientIp)).commandCount + 1 ∧
      s.lastSeen = e.timestamp ∧
      rlookup s.commands e.command
        = some ((rlookup
            ((rlookup prev e.clientIp).getD (freshIpStats e.clientIp)).commands
            e.command).getD 0 + 1) ∧
      (∀ c, c ≠ e.command →
        rlookup s.commands c
          = rlookup ((rlookup prev e.clientIp).getD (freshIpStats e.clientIp)).commands c) ∧
      s.bytesProcessed
        = ((rlookup prev e.clientIp).getD (freshIpStats e.clientIp)).bytesProcessed
            + e.raw.length := by
  unfold updateIpStats
  constructor
  · intro ip hip
    exact rlookup_rinsert_ne _ _ _ _ hip
  · exact ⟨_, rlookup_rinsert_self _ _ _, rfl, rfl, rlookup_rinsert_self _ _ _,
      fun c hc => rlookup_rinsert_ne _ _ _ _ hc, rfl⟩

/-- C2: after a delivery the replay buffer is the 1000 newest events, newest
first; the aggregator is fed the event regardless, and after any delivery
sequence the table is the fold of `updateIpStats` over all delivered events,
so trimming the buffer never changes accumulated totals. -/
theorem monitorBuffer_capped (s : MonitorState) (e : MonitorEvent) :
    (onMonitorEvent s e).monitorEvents.length ≤ 1000 ∧
    (onMonitorEvent s e).monitorEvents = (e :: s.monitorEvents).take 1000 ∧
    (onMonitorEvent s e).ipStats = updateIpStats s.ipStats e ∧
    ∀ es, (deliverAll s es).ipStats = es.foldl updateIpStats s.ipStats := by
  refine ⟨?_, rfl, rfl, ipStats_deliverAll s⟩
  simp only [onMonitorEvent, List.length_take]
  exact min_le_left _ _

/-- C3: the table is a deterministic fold of the event sequence from the
empty table, `clearMonitorEvents` resets it to empty, replaying the same
sequence after a fresh clear yields the identical table, and three events
from exactly two distinct client addresses yield exactly two entries whose
command counts sum to three. -/
theorem aggregator_replay (s t : MonitorState) (es : List MonitorEvent)
    (e1 e2 e3 : MonitorEvent)
    (hcard : ({e1.clientIp, e2.clientIp, e3.clientIp} : Finset String).card = 2) :
    (deliverAll (clearMonitorEvents s) es).ipStats
        = (deliverAll (clearMonitorEvents t) es).ipStats ∧
    (deliverAll (clearMonitorEvents s) es).ipStats = es.foldl updateIpStats [] ∧
    (clearMonitorEvents s).ipStats = [] ∧
    (deliverAll (clearMonitorEvents s) [e1, e2, e3]).ipStats.length = 2 ∧
    ccSum (deliverAll (clearMonitorEvents s) [e1, e2, e3]).ipStats = 3 := by
  have hclear : clearMonitorEvents s = { monitorEvents := [], ipStats := [] } := rfl
  refine ⟨rfl, ?_, rfl, ?_, ?_⟩
  · rw [hclear, ipStats_deliverAll]
  · have hnodup : (rkeys (deliverAll (clearMonitorEvents s) [e1, e2, e3]).ipStats).Nodup := by
      apply rkeys_nodup_deliverAll
      simp [hclear, rkeys]
    rw [rkeys_length_eq_card hnodup, rkeys_toFinset_deliverAll]
    rw [hclear]
    have hset : ((List.map MonitorEvent.clientIp [e1, e2, e3]).toFinset : Finset String)
        = {e1.clientIp, e2.clientIp, e3.clientIp} := by
      simp [List.toFinset_cons]
    simp only [rkeys, List.map_nil, List.toFinset_nil, Finset.empty_union]
    rw [hset, hcard]
  · rw [ccSum_deliverAll]
    · simp [hclear, ccSum]
    · simp [hclear, rkeys]

/-- Witness for C3 at a concrete three-event run from two addresses. -/
theorem aggregator_replay_witness :
    ({(sampleEvent "10.0.0.1" "GET").clientIp, (sampleEvent "10.0.0.2" "SET").clientIp,
        (sampleEvent "10.0.0.1" "DEL").clientIp} : Finset String).card = 2 ∧
    ((deliverAll (clearMonitorEvents { monitorEvents := [], ipStats := [] }) []).ipStats
        = (deliverAll (clearMonitorEvents { monitorEvents := [], ipStats := [] }) []).ipStats ∧
      (deliverAll (clearMonitorEvents { monitorEvents := [], ipStats := [] }) []).ipStats
        = List.foldl updateIpStats [] [] ∧
      (clearMonitorEvents { monitorEvents := [], ipStats := [] }).ipStats = [] ∧
      (deliverAll (clearMonitorEvents { monitorEvents := [], ipStats := [] })
          [sampleEvent "10.0.0.1" "GET", sampleEvent "10.0.0.2" "SET",
            sampleEvent "10.0.0.1" "DEL"]).ipStats.length = 2 ∧
      ccSum (deliverAll (clearMonitorEvents { monitorEvents := [], ipStats := [] })
          [sampleEvent "10.0.0.1" "GET", sampleEvent "10.0.0.2" "SET",
            sampleEvent "10.0.0.1" "DEL"]).ipStats = 3) :=
  ⟨by decide,
    aggregator_replay { monitorEvents := [], ipStats := [] }
      { monitorEvents := [], ipStats := [] } []
      (sampleEvent "10.0.0.1" "GET") (sampleEvent "10.0.0.2" "SET")
      (sampleEvent "10.0.0.1" "DEL") (by decide)⟩

/-- C4: when the stored password decrypts with a rejection, `connect` is not
aborted: it proceeds exactly as if the stored value were the plaintext, and a
successful backend connect still yields a connected session, so a decryption
failure alone never fails the connect. -/
theorem connect_decrypt_fallback (decrypt : String → Option String)
    (connectRedis : RedisServer → Except String Unit) (st : AppState)
    (serverId : String) (server : RedisServer) (p : String)
    (hfind : st.servers.find? (fun s => s.id = serverId) = some server)
    (hpw : server.password = some p) (hp : p ≠ "")
    (hfail : decrypt p = none) :
    connect decrypt connectRedis st serverId
      = connectWith connectRedis st serverId server (some p) ∧
    (connectRedis { server with password := some p } = Except.ok () →
      rlookup (connect decrypt connectRedis st serverId).connectionStates serverId
        = some { serverId := serverId, connected := true, monitoring := false,
                 error := none }) := by
  have hpw' : decryptedPassword decrypt server.password = some p := by
    rw [hpw]
    simp [decryptedPassword, hp, hfail]
  have hconn : connect decrypt connectRedis st serverId
      = connectWith connectRedis st serverId server (some p) := by
    unfold connect
    rw [hfind]
    show connectWith connectRedis st serverId server
        (decryptedPassword decrypt server.password) = _
    rw [hpw']
  refine ⟨hconn, fun hok => ?_⟩
  rw [hconn]
  unfold connectWith
  simp only [hok]
  exact rlookup_rinsert_self _ _ _

/-- Witness for C4: a rejecting decrypt oracle plus a succeeding backend
connect still produce a connected session. -/
theorem connect_decrypt_fallback_witness :
    (sampleAppState.servers.find? (fun s => s.id = "s1") = some sampleServer ∧
      sampleServer.password = some "secret" ∧ "secret" ≠ "" ∧
      failDecrypt "secret" = none) ∧
    (connect failDecrypt okConnect sampleAppState "s1"
        = connectWith okConnect sampleAppState "s1" sampleServer (some "secret") ∧
      (okConnect { sampleServer with password := some "secret" } = Except.ok () →
        rlookup (connect failDecrypt okConnect
            sampleAppState "s1").connectionStates "s1"
          = some { serverId := "s1", connected := true, monitoring := false,
                   error := none })) :=
  ⟨⟨by decide, rfl, by decide, rfl⟩,
    connect_decrypt_fallback failDecrypt okConnect
      sampleAppState "s1" sampleServer "secret" (by decide) rfl (by decide) rfl⟩

/-- C5: `disconnect` always leaves the session entry for the id disconnected
(connected and monitoring false), for every outcome of the underlying close
call, and a second run changes nothing. -/
theorem disconnect_idempotent (closeResult closeResult' : Except String Unit)
    (st : AppState) (serverId : String) :
    rlookup (disconnect closeResult st serverId).connectionStates serverId
      = some { serverId := serverId, connected := false, monitoring := false,
               error := none } ∧
    disconnect closeResult' (disconnect closeResult st serverId) serverId
      = disconnect closeResult st serverId := by
  constructor
  · exact rlookup_rinsert_self _ _ _
  · unfold disconnect
    simp [rinsert_rinsert_same]

/-- C6: after `removeServer` no profile with the id remains in the saved
list, the session entry is disconnected (the disconnect happens before the
removal in the source), and if the profile was active no profile is active
afterwards. -/
theorem removeServer_correct (closeResult : Except String Unit) (st : AppState)
    (serverId : String) :
    (∀ s, s ∈ (removeServer closeResult st serverId).servers → s.id ≠ serverId) ∧
    rlookup (removeServer closeResult st serverId).connectionStates serverId
      = some { serverId := serverId, connected := false, monitoring := false,
               error := none } ∧
    (st.activeServerId = some serverId →
      (removeServer closeResult st serverId).activeServerId = none) := by
  have hmain : (removeServer closeResult st serverId).servers
        = st.servers.filter (fun s => !(s.id = serverId)) ∧
      (removeServer closeResult st serverId).connectionStates
        = rinsert st.connectionStates serverId
            { serverId := serverId, connected := false, monitoring := false,
              error := none } ∧
      (st.activeServerId = some serverId →
        (removeServer closeResult st serverId).activeServerId = none) := by
    unfold removeServer disconnect
    by_cases hact : st.activeServerId = some serverId <;> simp [hact]
  obtain ⟨h1, h2, h3⟩ := hmain
  refine ⟨?_, ?_, h3⟩
  · intro s hs
    rw [h1] at hs
    simp only [List.mem_filter] at hs
    simpa using hs.2
  · rw [h2]
    exact rlookup_rinsert_self _ _ _

/-- C7: a `connect` whose backend call succeeds records a connected session
with no error; one whose backend call rejects with a non-empty message
records a disconnected session carrying that non-empty message; and one
`connect` hands the backend at most one connection attempt (no automatic
retry). The model is a total function, so no path escapes as an exception. -/
theorem connect_records_result (decrypt : String → Option String)
    (connectRedis : RedisServer → Except String Unit) (st : AppState)
    (serverId : String) (server : RedisServer) (e : String)
    (hfind : st.servers.find? (fun s => s.id = serverId) = some server)
    (he : e ≠ "") :
    (connectRedis { server with
          password := decryptedPassword decrypt server.password } = Except.ok () →
      rlookup (connect decrypt connectRedis st serverId).connectionStates serverId
        = some { serverId := serverId, connected := true, monitoring := false,
                 error := none }) ∧
    (connectRedis { server with
          password := decryptedPassword decrypt server.password } = Except.error e →
      ∃ msg, msg ≠ "" ∧
        rlookup (connect decrypt connectRedis st serverId).connectionStates serverId
          = some { serverId := serverId, connected := false, monitoring := false,
                   error := some msg }) ∧
    (connectCalls decrypt st serverId).length ≤ 1 := by
  have hconn : connect decrypt connectRedis st serverId
      = connectWith connectRedis st serverId server
          (decryptedPassword decrypt server.password) := by
    unfold connect
    rw [hfind]
  refine ⟨fun hok => ?_, fun herr => ⟨e, he, ?_⟩, ?_⟩
  · rw [hconn]
    unfold connectWith
    simp only [hok]
    exact rlookup_rinsert_self _ _ _
  · rw [hconn]
    unfold connectWith
    simp only [herr]
    exact rlookup_rinsert_self _ _ _
  · unfold connectCalls
    rw [hfind]
    simp

/-- Witness for C7: a backend that rejects with "connection refused" yields a
disconnected session with that message recorded. -/
theorem connect_records_result_witness :
    (sampleAppState.servers.find? (fun s => s.id = "s1") = some sampleServer ∧
      "connection refused" ≠ "") ∧
    ((refuseConnect { sampleServer with
          password := decryptedPassword failDecrypt sampleServer.password }
          = Except.ok () →
      rlookup (connect failDecrypt refuseConnect
          sampleAppState "s1").connectionStates "s1"
        = some { serverId := "s1", connected := true, monitoring := false,
                 error := none }) ∧
    (refuseConnect { sampleServer with
          password := decryptedPassword failDecrypt sampleServer.password }
        = Except.error "connection refused" →
      ∃ msg, msg ≠ "" ∧
        rlookup (connect failDecrypt refuseConnect
            sampleAppState "s1").connectionStates "s1"
          = some { serverId := "s1", connected := false, monitoring := false,
                   error := some msg }) ∧
    (connectCalls failDecrypt sampleAppState "s1").length ≤ 1) :=
  ⟨⟨by decide, by decide⟩,
    connect_records_result failDecrypt refuseConnect
      sampleAppState "s1" sampleServer "connection refused" (by decide) (by decide)⟩

/-- C8 counterexample: when the vault's encrypt call rejects, `addServer`
writes the plaintext the user entered into the persisted profile list — the
claim's "never the plaintext" does not hold on the code's catch branch. -/
theorem addServer_stores_plaintext :
    ((addServer failEncrypt "u-1"
        { servers := [], activeServerId := none, connectionStates := [] }
        { id := "", name := "dev", host := "localhost", port := 6379,
          password := some "hunter2", db := none, tls := none }).servers.map
      (fun s => s.password)) = [some "hunter2"] := by decide

/-- C8 (amended): whenever the vault's encrypt call succeeds, the value
persisted by `addServer` and `updateServer` for a non-empty password is the
vault's ciphertext; only when the encrypt call rejects is the entered value
stored as-is. -/
theorem encrypted_storage (encrypt : String → Option String) (newId : String)
    (closeResult : Except String Unit) (st : AppState) (server : RedisServer)
    (p ct : String) (hpw : server.password = some p) (hp : p ≠ "")
    (henc : encrypt p = some ct) :
    (addServer encrypt newId st server).servers
      = st.servers ++ [{ server with password := some ct, id := newId }] ∧
    (∀ s, s ∈ (updateServer encrypt closeResult st server).servers →
      s.id = server.id → s.password = some ct) := by
  have hep : encryptedPassword encrypt server.password = some ct := by
    rw [hpw]
    simp [encryptedPassword, hp, henc]
  constructor
  · unfold addServer
    rw [hep]
  · intro s hs hid
    have hserv : (updateServer encrypt closeResult st server).servers
        = st.servers.map (fun s0 => if s0.id = server.id then
            { server with password := encryptedPassword encrypt server.password }
          else s0) := by
      unfold updateServer
      cases hcs : rlookup st.connectionStates server.id with
      | none => rfl
      | some cstate =>
          by_cases hc : cstate.connected = true <;> simp [hc, disconnect]
    rw [hserv] at hs
    rcases List.mem_map.mp hs with ⟨s0, hs0, heq⟩
    by_cases h0 : s0.id = server.id
    · simp only [h0, if_pos] at heq
      rw [heq.symm] at hid ⊢
      simp [hep]
    · simp only [h0, if_neg, ite_false] at heq
      rw [heq.symm] at hid
      exact absurd hid h0

/-- Witness for the amended C8 at a succeeding vault. -/
theorem encrypted_storage_witness :
    (sampleServer.password = some "secret" ∧ "secret" ≠ "" ∧
      okEncrypt "secret" = some "vault:abc") ∧
    ((addServer okEncrypt "u-2" sampleAppState sampleServer).servers
        = sampleAppState.servers
            ++ [{ sampleServer with password := some "vault:abc", id := "u-2" }] ∧
      (∀ s, s ∈ (updateServer okEncrypt (Except.ok ()) sampleAppState
            sampleServer).servers →
        s.id = sampleServer.id → s.password = some "vault:abc")) :=
  ⟨⟨rfl, by decide, rfl⟩,
    encrypted_storage okEncrypt "u-2" (Except.ok ()) sampleAppState sampleServer
      "secret" "vault:abc" rfl (by decide) rfl⟩

/-- C9: a line matching a destructive prefix with a `critical` verdict that
has not been acknowledged is never handed to `execute_command`; the explicit
acknowledgement always executes the (trimmed) line unchanged; and a
non-blank line matching no destructive prefix is executed directly, without
the outcome depending on the classifier oracle at all. -/
theorem dangerous_gate (assess : String → String → Option PerformanceWarning)
    (command : String) (w : PerformanceWarning)
    (hdanger : checkDangerous command = true)
    (hverdict : assess (jsToUpper (headWord command)) command = some w)
    (hcrit : w.level = "critical") :
    (∀ s, executeCommand assess command ≠ ExecOutcome.executed s) ∧
    confirmDangerous command = ExecOutcome.executed (jsTrim command) ∧
    (∀ cmd a1 a2, checkDangerous cmd = false →
        executeCommand a1 cmd = executeCommand a2 cmd) ∧
    (∀ cmd a, checkDangerous cmd = false → jsTrim cmd ≠ "" →
        executeCommand a cmd = ExecOutcome.executed (jsTrim cmd)) := by
  refine ⟨?_, rfl, ?_, ?_⟩
  · intro s
    unfold executeCommand
    by_cases ht : jsTrim command = ""
    · simp [ht]
    · simp [ht, hdanger, hverdict, hcrit]
  · intro cmd a1 a2 hnd
    unfold executeCommand
    simp [hnd]
  · intro cmd a hnd hne
    unfold executeCommand
    simp [hnd, hne]

/-- Witness for C9 at the concrete line "FLUSHDB" under a critical
verdict. -/
theorem dangerous_gate_witness :
    (checkDangerous "FLUSHDB" = true ∧
      critAssess (jsToUpper (headWord "FLUSHDB")) "FLUSHDB" = some critWarning ∧
      critWarning.level = "critical") ∧
    ((∀ s, executeCommand critAssess "FLUSHDB" ≠ ExecOutcome.executed s) ∧
      confirmDangerous "FLUSHDB" = ExecOutcome.executed (jsTrim "FLUSHDB") ∧
      (∀ cmd a1 a2, checkDangerous cmd = false →
          executeCommand a1 cmd = executeCommand a2 cmd) ∧
      (∀ cmd a, checkDangerous cmd = false → jsTrim cmd ≠ "" →
          executeCommand a cmd = ExecOutcome.executed (jsTrim cmd))) :=
  ⟨⟨by decide, rfl, rfl⟩,
    dangerous_gate critAssess "FLUSHDB" critWarning (by decide) rfl rfl⟩

/-- C10: with a (non-empty) selected address the exposed event list is
exactly the retained buffer's subsequence of events from that address, in
buffer order; with no selection the full buffer is exposed. The function
returns a new list and takes the buffer and table as plain values, so it
mutates neither. -/
theorem filteredEvents_correct (evs : List MonitorEvent) (ip : String)
    (hip : ip ≠ "") :
    filteredEvents none evs = evs ∧
    (filteredEvents (some ip) evs).Sublist evs ∧
    (∀ e, e ∈ filteredEvents (some ip) evs ↔ e ∈ evs ∧ e.clientIp = ip) := by
  refine ⟨rfl, ?_, ?_⟩
  · simp only [filteredEvents, hip, if_neg]
    exact List.filter_sublist evs
  · intro e
    simp [filteredEvents, hip, List.mem_filter]

/-- Witness for C10 at a one-event buffer and a concrete selection. -/
theorem filteredEvents_correct_witness :
    ("10.0.0.1" : String) ≠ "" ∧
    (filteredEvents none [sampleEvent "10.0.0.1" "GET"]
        = [sampleEvent "10.0.0.1" "GET"] ∧
      (filteredEvents (some "10.0.0.1")
          [sampleEvent "10.0.0.1" "GET"]).Sublist [sampleEvent "10.0.0.1" "GET"] ∧
      (∀ e, e ∈ filteredEvents (some "10.0.0.1") [sampleEvent "10.0.0.1" "GET"]
        ↔ e ∈ [sampleEvent "10.0.0.1" "GET"] ∧ e.clientIp = "10.0.0.1")) :=
  ⟨by decide,
    filteredEvents_correct [sampleEvent "10.0.0.1" "GET"] "10.0.0.1" (by decide)⟩

end RedisTics
